/-
Verification of the ensemble build pipeline (nengo/builder/ensemble.py).

The pipeline is embedded shallowly: the stateful `model` object becomes an
explicit `Model` value threaded through the build; `np.random.RandomState`
becomes an abstract deterministic state (`Rng`) threaded through every
sampling call; numpy float64 arrays become lists of real numbers (for the
idealized arithmetic) together with an explicit shape list where the code
inspects `ndim`; a Python exception becomes `Except`, whose error case also
carries the model as mutated so far, mirroring in-place mutation that
survives a raised exception.

External collaborators (distributions, the neuron model's `gain_bias` and
sub-builder, the noise sub-builder, `nengo.utils.numpy.norm`,
`default_n_eval_points`) live outside the single source file; they are
modelled from the spec as abstract capabilities carried by the input data.
-/
import Mathlib

set_option maxHeartbeats 1000000

namespace NengoBuild

noncomputable section

/-- Deterministic random-generator state.  `np.random.RandomState(seed)` is a
deterministic stream keyed by the seed; sampling advances the state.  The
state is abstract: distributions are functions of it. -/
abbrev Rng := Nat

/-- Modelled from the spec: `np.random.RandomState(seed)` yields a
deterministic stream fully determined by the seed. -/
def mkRng (seed : Nat) : Rng := seed

/-- A 2-D float array as a list of rows. -/
abbrev Mat := List (List ℝ)

/-- A numpy ndarray: shape plus flattened (row-major) data.  Only used where
the code inspects `ndim` (eval points); elsewhere `Mat`/`List ℝ` suffice. -/
structure Arr where
  shape : List Nat
  data : List ℝ

/-- Number of array dimensions, `ndarray.ndim`. -/
def Arr.ndim (a : Arr) : Nat := a.shape.length

/-- The 1-D zero array `np.zeros(n)`. -/
def zerosArr (n : Nat) : Arr := ⟨[n], List.replicate n 0⟩

/-- View of a 1-D vector as an ndarray. -/
def vecArr (v : List ℝ) : Arr := ⟨[v.length], v⟩

/-- View of a 2-D matrix as an ndarray. -/
def matArr (M : Mat) : Arr := ⟨[M.length, (M.headD []).length], M.flatten⟩

/-- Elementwise scaling `a * r` (`eval_points *= ens.radius`). -/
def arrScale (a : Arr) (r : ℝ) : Arr := ⟨a.shape, a.data.map fun x => x * r⟩

/-- Sum of squares of a row. -/
def sumSq (v : List ℝ) : ℝ := (v.map fun x => x * x).sum

/-- Modelled from the spec: `nengo.utils.numpy.norm(..., axis=1)` (outside
src/) is the Euclidean row norm, the square root of the sum of squares. -/
def rowNorm (v : List ℝ) : ℝ := Real.sqrt (sumSq v)

/-- Row-wise normalization `encoders /= npext.norm(encoders, axis=1,
keepdims=True)`: each entry divided by its row's Euclidean norm. -/
def normalizeRows (M : Mat) : Mat :=
  M.map fun r => r.map fun x => x / rowNorm r

/-- The identity matrix `np.identity(n)`. -/
def identityMat (n : Nat) : Mat :=
  (List.range n).map fun i => (List.range n).map fun j => if i = j then (1 : ℝ) else 0

/-- Broadcast product `encoders * (gain / radius)[:, np.newaxis]`: row `i`
multiplied elementwise by `gain i / radius`. -/
def scaleEnc (E : Mat) (g : List ℝ) (r : ℝ) : Mat :=
  List.zipWith (fun row gi => row.map fun x => x * (gi / r)) E g

/-- A named mutable buffer.  `id` is the allocation identity: two `Signal()`
calls in the code always create distinct buffers, while assigning an existing
signal to a second key aliases the same buffer. -/
structure Signal where
  id : Nat
  name : String
  init : Arr
  readonly : Bool

/-- Keys of the build context's signal dictionary: the code indexes
`model.sig` either by the ensemble or by its neuron population. -/
inductive SigEntity
  | ens (i : Nat)
  | neurons (i : Nat)
deriving DecidableEq

/-- Primitive dataflow instructions emitted by the build.  `sub` stands for
an operator emitted by a delegated sub-builder (neuron model or noise
process), which is outside the source file. -/
inductive Operator
  | reset (s : Signal)
  | copy (src dst : Signal)
  | dotinc (a x y : Signal) (tag : String)
  | sub (tag : String) (sigs : List Signal)

/-- Errors the pipeline can raise: the `NotImplementedError` from
`get_gain_bias` (with its message) and the failed
`assert eval_points.ndim == 2` in `gen_eval_points`. -/
inductive BuildError
  | notImplemented (msg : String)
  | shapeAssert
deriving DecidableEq

/-- The `BuiltEnsemble` namedtuple recorded in `model.params`. -/
structure BuiltEnsemble where
  eval_points : Arr
  encoders : Mat
  intercepts : Option (List ℝ)
  max_rates : Option (List ℝ)
  scaled_encoders : Mat
  gain : List ℝ
  bias : List ℝ

/-- Modelled from the spec: a distribution sampled with `d=None`, drawing a
length-`n` vector and advancing the rng state. -/
structure DistV where
  sampleFn : Nat → Rng → List ℝ × Rng

/-- Modelled from the spec: a distribution sampled with an explicit `d`,
drawing an `n × d` matrix and advancing the rng state. -/
structure DistM where
  sampleFn : Nat → Nat → Rng → Mat × Rng

/-- A gain/bias/max_rates/intercepts spec: a distribution or a literal
1-D array. -/
inductive VecSpec
  | dist (d : DistV)
  | lit (v : List ℝ)

/-- An encoder spec: a distribution or a literal 2-D array. -/
inductive MatSpec
  | dist (d : DistM)
  | lit (m : Mat)

/-- An eval-point spec: a distribution or a literal array of any ndim (the
code validates the ndim of literals). -/
inductive EvalSpec
  | dist (d : DistM)
  | lit (a : Arr)

/-- Modelled from the spec: the neuron-model capability.  `isDirect` is the
`isinstance(ens.neuron_type, Direct)` pass-through test; `gain_bias` is the
tuning-curve inversion; `buildOps` is the delegated sub-builder, which emits
operators against the given neuron input/output signals. -/
structure NeuronType where
  isDirect : Bool
  gain_bias : List ℝ → List ℝ → List ℝ × List ℝ
  buildOps : Signal → Signal → List Operator

/-- Modelled from the spec: a noise process's sub-builder emits operators
incrementing the given target signal. -/
structure NoiseProc where
  buildOps : Signal → List Operator

/-- The immutable ensemble spec.  `id` is the ensemble's identity (the
dictionary key); `name` is its string form, used in signal names and error
messages. -/
structure Ensemble where
  id : Nat
  name : String
  n_neurons : Nat
  dimensions : Nat
  radius : ℝ
  neuron_type : NeuronType
  eval_points : EvalSpec
  n_eval_points : Option Nat
  encoders : MatSpec
  gain : Option VecSpec
  bias : Option VecSpec
  max_rates : VecSpec
  intercepts : VecSpec
  noise : Option NoiseProc

/-- The shared mutable build context: per-ensemble seed table, a fresh-id
counter for signal allocation, the signal dictionary, the operator list, the
params table and the (global, in the code) warning record. -/
structure Model where
  seeds : Nat → Nat
  nextId : Nat
  sig : SigEntity → String → Option Signal
  ops : List Operator
  params : Nat → Option BuiltEnsemble
  warns : List String

/-- Dictionary write `model.sig[k][role] = s`. -/
def setSig (m : Model) (k : SigEntity) (role : String) (s : Signal) : Model :=
  { m with sig := fun k2 r2 => if k2 = k ∧ r2 = role then some s else m.sig k2 r2 }

/-- `model.add_op(op)`. -/
def addOp (m : Model) (op : Operator) : Model := { m with ops := m.ops ++ [op] }

/-- Appending the operators emitted by a delegated sub-builder. -/
def addOps (m : Model) (l : List Operator) : Model := { m with ops := m.ops ++ l }

/-- Recording warnings issued by `warnings.warn`. -/
def addWarns (m : Model) (ws : List String) : Model := { m with warns := m.warns ++ ws }

/-- `model.params[i] = be`. -/
def setParams (m : Model) (i : Nat) (be : BuiltEnsemble) : Model :=
  { m with params := fun j => if j = i then some be else m.params j }

/-- `Signal(init, name=..., readonly=...)`: allocates a fresh buffer. -/
def allocSignal (m : Model) (ini : Arr) (nm : String) (ro : Bool) : Signal × Model :=
  (⟨m.nextId, nm, ini, ro⟩, { m with nextId := m.nextId + 1 })

/-- Modelled from the spec: `nengo.utils.builder.default_n_eval_points`
(outside src/) derives a default point count from the neuron count and the
dimensionality.  No theorem depends on the exact formula, only on its
determinism. -/
def default_n_eval_points (n_neurons dimensions : Nat) : Nat :=
  max (2 * n_neurons) (500 * dimensions)

/-- The `sample` helper called with `d=None` (gain, bias, max_rates,
intercepts): a distribution is sampled with the rng, a literal is coerced
unchanged and does not touch the rng. -/
def sampleVec (s : VecSpec) (n : Nat) (rng : Rng) : List ℝ × Rng :=
  match s with
  | .dist d => d.sampleFn n rng
  | .lit v => (v, rng)

/-- The `sample` helper called with an explicit `d` (encoders). -/
def sampleMat (s : MatSpec) (n d : Nat) (rng : Rng) : Mat × Rng :=
  match s with
  | .dist dd => dd.sampleFn n d rng
  | .lit a => (a, rng)

/-- The warning text of the eval-point count mismatch. -/
def evalMismatchWarn : String :=
  "Number of eval_points doesn\x27t match n_eval_points. Ignoring n_eval_points."

/-- `gen_eval_points`: for a distribution spec, sample `n_points` (the
explicit override, else the default) points of dimension `ens.dimensions`;
for a literal, warn if an explicit count override disagrees with the row
count, then assert the array is 2-D.  Either way, scale by the radius last.
Returns the warnings issued together with the result or the assertion
error. -/
def gen_eval_points (ens : Ensemble) (evalPoints : EvalSpec) (rng : Rng)
    (scaleEvalPoints : Bool) : List String × Except BuildError (Arr × Rng) :=
  match evalPoints with
  | .dist d =>
    let nPoints :=
      match ens.n_eval_points with
      | some k => k
      | none => default_n_eval_points ens.n_neurons ens.dimensions
    let sr := d.sampleFn nPoints ens.dimensions rng
    ([], .ok (if scaleEvalPoints then arrScale (matArr sr.1) ens.radius else matArr sr.1, sr.2))
  | .lit a =>
    let ws :=
      match ens.n_eval_points with
      | some k => if a.shape.headD 0 ≠ k then [evalMismatchWarn] else []
      | none => []
    if a.ndim = 2 then
      (ws, .ok (if scaleEvalPoints then arrScale a ens.radius else a, rng))
    else
      (ws, .error .shapeAssert)

/-- The `NotImplementedError` message raised when exactly one of gain/bias
is set (`"gain or bias set for %s, but not both. ..."`). -/
def gbErrMsg (nm : String) : String :=
  "gain or bias set for " ++ nm ++
    ", but not both. Solving for one given the other is not implemented yet."

/-- `get_gain_bias`: both given — sample both, leave max_rates/intercepts
unset; exactly one given — raise; neither — sample max_rates/intercepts and
invert through the neuron model's `gain_bias`. -/
def get_gain_bias (ens : Ensemble) (rng : Rng) :
    Except BuildError ((List ℝ × List ℝ × Option (List ℝ) × Option (List ℝ)) × Rng) :=
  match ens.gain, ens.bias with
  | some g, some b =>
    let gr := sampleVec g ens.n_neurons rng
    let br := sampleVec b ens.n_neurons gr.2
    .ok ((gr.1, br.1, none, none), br.2)
  | some _, none => .error (.notImplemented (gbErrMsg ens.name))
  | none, some _ => .error (.notImplemented (gbErrMsg ens.name))
  | none, none =>
    let mr := sampleVec ens.max_rates ens.n_neurons rng
    let ic := sampleVec ens.intercepts ens.n_neurons mr.2
    let gb := ens.neuron_type.gain_bias mr.1 ic.1
    .ok ((gb.1, gb.2, some mr.1, some ic.1), ic.2)

/-- The encoder-selection step of `build_ensemble` (before normalization):
identity for a pass-through neuron model (no rng use), otherwise the matrix
sampled or coerced from the encoder spec. -/
def encSample (ens : Ensemble) (rng : Rng) : Mat × Rng :=
  if ens.neuron_type.isDirect then (identityMat ens.dimensions, rng)
  else sampleMat ens.encoders ens.n_neurons ens.dimensions rng

/-- `build_ensemble`: the full pipeline.  On an exception the error value
carries the model as mutated so far (in the code the model object keeps its
in-place mutations when the exception propagates). -/
def build_ensemble (model : Model) (ens : Ensemble) :
    Except (BuildError × Model) Model :=
  let rng := mkRng (model.seeds ens.id)
  let gp := gen_eval_points ens ens.eval_points rng true
  let model1 := addWarns model gp.1
  match gp.2 with
  | .error e => .error (e, model1)
  | .ok pr =>
    let eval_points := pr.1
    let al := allocSignal model1 (zerosArr ens.dimensions) (ens.name ++ ".signal") false
    let sigIn := al.1
    let model2 := setSig al.2 (.ens ens.id) "in" sigIn
    let model3 := addOp model2 (.reset sigIn)
    let ec := encSample ens pr.2
    let encoders := normalizeRows ec.1
    match get_gain_bias ens ec.2 with
    | .error e => .error (e, model3)
    | .ok gb =>
      let gain := gb.1.1
      let bias := gb.1.2.1
      let max_rates := gb.1.2.2.1
      let intercepts := gb.1.2.2.2
      let st :=
        if ens.neuron_type.isDirect then
          let alN := allocSignal model3 (zerosArr ens.dimensions)
            (ens.name ++ ".neuron_in") false
          let m4 := setSig alN.2 (.neurons ens.id) "in" alN.1
          let m5 := setSig m4 (.neurons ens.id) "out" alN.1
          let m6 := addOp m5 (.reset alN.1)
          (m6, alN.1, alN.1)
        else
          let alIn := allocSignal model3 (zerosArr ens.n_neurons)
            (ens.name ++ ".neuron_in") false
          let m4 := setSig alIn.2 (.neurons ens.id) "in" alIn.1
          let alOut := allocSignal m4 (zerosArr ens.n_neurons)
            (ens.name ++ ".neuron_out") false
          let m5 := setSig alOut.2 (.neurons ens.id) "out" alOut.1
          let alB := allocSignal m5 (vecArr bias) (ens.name ++ ".bias") true
          let m6 := addOp alB.2 (.copy alB.1 alIn.1)
          let m7 := addOps m6 (ens.neuron_type.buildOps alIn.1 alOut.1)
          (m7, alIn.1, alOut.1)
      let m8 := st.1
      let sigNIn := st.2.1
      let sigNOut := st.2.2
      let scaled_encoders :=
        if ens.neuron_type.isDirect then encoders
        else scaleEnc encoders gain ens.radius
      let alE := allocSignal m8 (matArr scaled_encoders)
        (ens.name ++ ".scaled_encoders") true
      let m9 := setSig alE.2 (.ens ens.id) "encoders" alE.1
      let m10 :=
        match ens.noise with
        | some nz => addOps m9 (nz.buildOps sigNIn)
        | none => m9
      let m11 := addOp m10 (.dotinc alE.1 sigIn sigNIn (ens.name ++ " encoding"))
      let m12 := setSig m11 (.ens ens.id) "out" sigNOut
      .ok (setParams m12 ens.id
        ⟨eval_points, encoders, intercepts, max_rates, scaled_encoders, gain, bias⟩)

/-- The model state after the call, whether it succeeded or raised (in the
code the caller holds the same mutated model object in both cases). -/
def resModel : Except (BuildError × Model) Model → Model
  | .ok m => m
  | .error (_, m) => m

/-- The error raised by the build, if any. -/
def resErr : Except (BuildError × Model) Model → Option BuildError
  | .ok _ => none
  | .error (e, _) => some e

/-- Whether an `Except` result is a success. -/
def exOk {ε α : Type _} : Except ε α → Bool
  | .ok _ => true
  | .error _ => false

/-- The `BuiltEnsemble` recorded for the ensemble by a successful build. -/
def builtRecord (m : Model) (ens : Ensemble) : Option BuiltEnsemble :=
  match build_ensemble m ens with
  | .ok m2 => m2.params ens.id
  | .error _ => none

/-- The recorded eval points (empty array if the build failed). -/
def builtEvalPoints (m : Model) (ens : Ensemble) : Arr :=
  match builtRecord m ens with
  | some be => be.eval_points
  | none => ⟨[], []⟩

/-- The recorded encoder matrix (empty if the build failed). -/
def builtEncoders (m : Model) (ens : Ensemble) : Mat :=
  match builtRecord m ens with
  | some be => be.encoders
  | none => []

/-- The recorded scaled encoder matrix (empty if the build failed). -/
def builtScaledEncoders (m : Model) (ens : Ensemble) : Mat :=
  match builtRecord m ens with
  | some be => be.scaled_encoders
  | none => []

/-- The recorded gain vector (empty if the build failed). -/
def builtGain (m : Model) (ens : Ensemble) : List ℝ :=
  match builtRecord m ens with
  | some be => be.gain
  | none => []

/-- The encoder matrix as sampled or literally given, before the row
normalization step (identity in the pass-through case); empty if eval-point
generation already failed.  This is the matrix the claim about row norms
constrains. -/
def rawEncoders (m : Model) (ens : Ensemble) : Mat :=
  let gp := gen_eval_points ens ens.eval_points (mkRng (m.seeds ens.id)) true
  match gp.2 with
  | .error _ => []
  | .ok pr => (encSample ens pr.2).1

/-- The model state just after the ensemble input signal and its `Reset`
operator are registered (the mutations preceding `get_gain_bias`). -/
def stage1 (m : Model) (ens : Ensemble) (ws : List String) : Model :=
  let al := allocSignal (addWarns m ws) (zerosArr ens.dimensions)
    (ens.name ++ ".signal") false
  addOp (setSig al.2 (.ens ens.id) "in" al.1) (.reset al.1)

/-- A pass-through neuron model (`Direct`): witness fixture. -/
def directNT : NeuronType := ⟨true, fun mr _ => (mr, mr), fun _ _ => []⟩

/-- A standard (non-pass-through) neuron model: witness fixture. -/
def lifNT : NeuronType :=
  ⟨false, fun mr ic => (mr, ic), fun sIn sOut => [.sub "neurons" [sIn, sOut]]⟩

/-- A fresh build context: witness fixture. -/
def exModel : Model := ⟨fun _ => 7, 0, fun _ _ => none, [], fun _ => none, []⟩

/-- A build context with the same seed table but different counter, warning
record and prior state: witness fixture for determinism. -/
def exModelB : Model := ⟨fun _ => 7, 5, fun _ _ => none, [], fun _ => none, ["w0"]⟩

/-- A well-configured non-pass-through ensemble: witness fixture. -/
def exEns : Ensemble :=
  ⟨0, "E", 2, 2, 2, lifNT, .lit ⟨[1, 2], [1, 0]⟩, none, .lit [[1, 0], [0, 1]],
   some (.lit [1, 2]), some (.lit [0, 0]), .lit [3, 3], .lit [0, 0], none⟩

/-- The same ensemble with a pass-through neuron model: witness fixture. -/
def exEnsDirect : Ensemble := { exEns with neuron_type := directNT }

/-- The same ensemble with only gain specified: witness fixture. -/
def exEnsOnlyGain : Ensemble := { exEns with bias := none }

/-- The same ensemble with only bias specified: witness fixture. -/
def exEnsOnlyBias : Ensemble := { exEns with gain := none }

/-- The same ensemble with a 50-row literal eval-point array but an explicit
count hint of 40: witness fixture. -/
def exEnsMismatch : Ensemble :=
  { exEns with eval_points := .lit ⟨[50, 1], List.replicate 50 1⟩,
               n_eval_points := some 40 }

/-- The same ensemble with a 3-dimensional literal eval-point array: witness
fixture. -/
def exEns3d : Ensemble :=
  { exEns with eval_points := .lit ⟨[2, 2, 2], List.replicate 8 1⟩ }

/-- A sum of squares is nonnegative. -/
theorem sumSq_nonneg (v : List ℝ) : 0 ≤ sumSq v := by
  induction v with
  | nil => simp [sumSq]
  | cons x xs ih =>
    simp only [sumSq, List.map_cons, List.sum_cons]
    exact add_nonneg (mul_self_nonneg x) ih

/-- Dividing every entry by a constant divides the sum of squares by its
square. -/
theorem sumSq_map_div (v : List ℝ) (c : ℝ) :
    sumSq (v.map fun x => x / c) = sumSq v / (c * c) := by
  induction v with
  | nil => simp [sumSq]
  | cons x xs ih =>
    simp only [sumSq, List.map_cons, List.sum_cons] at *
    rw [ih, div_mul_div_comm, div_add_div_same]

/-- A row with nonzero sum of squares has unit Euclidean norm after
normalization. -/
theorem rowNorm_normalized (v : List ℝ) (h : sumSq v ≠ 0) :
    rowNorm (v.map fun x => x / rowNorm v) = 1 := by
  unfold rowNorm
  rw [sumSq_map_div, Real.mul_self_sqrt (sumSq_nonneg v), div_self h, Real.sqrt_one]

/-- Every row of a normalized matrix whose raw rows all have nonzero sum of
squares has unit Euclidean norm. -/
theorem rowNorm_normalizeRows (M : Mat) (h : ∀ v ∈ M, sumSq v ≠ 0) :
    ∀ r ∈ normalizeRows M, rowNorm r = 1 := by
  intro r hr
  simp only [normalizeRows, List.mem_map] at hr
  obtain ⟨v, hv, rfl⟩ := hr
  exact rowNorm_normalized v (h v hv)

/-- Sum of the 0/1 indicator row of index `i` over `List.range n`. -/
theorem sum_indicator_range (n i : Nat) :
    (((List.range n).map fun j => if i = j then (1 : ℝ) else 0)).sum
      = if i < n then 1 else 0 := by
  induction n with
  | zero => simp
  | succ n ih =>
    rw [List.range_succ, List.map_append, List.sum_append, ih]
    simp only [List.map_cons, List.map_nil, List.sum_cons, List.sum_nil, add_zero]
    rcases Nat.lt_trichotomy i n with h | h | h
    · rw [if_pos h, if_neg (by omega), if_pos (by omega)]
      norm_num
    · rw [if_neg (by omega), if_pos h, if_pos (by omega)]
      norm_num
    · rw [if_neg (by omega), if_neg (by omega), if_neg (by omega)]
      norm_num

/-- A row of the identity matrix has sum of squares 1. -/
theorem sumSq_identRow (n i : Nat) (h : i < n) :
    sumSq ((List.range n).map fun j => if i = j then (1 : ℝ) else 0) = 1 := by
  unfold sumSq
  rw [List.map_map]
  have : ((fun x => x * x) ∘ fun j => if i = j then (1 : ℝ) else 0)
      = fun j => if i = j then (1 : ℝ) else 0 := by
    funext j
    by_cases hj : i = j <;> simp [hj]
  rw [this, sum_indicator_range, if_pos h]

/-- Normalizing the identity matrix leaves it unchanged: each row already has
unit norm. -/
theorem normalizeRows_identityMat (n : Nat) :
    normalizeRows (identityMat n) = identityMat n := by
  unfold normalizeRows identityMat
  rw [List.map_map]
  apply List.map_congr_left
  intro i hi
  rw [List.mem_range] at hi
  simp only [Function.comp_apply]
  have hn : rowNorm ((List.range n).map fun j => if i = j then (1 : ℝ) else 0) = 1 := by
    unfold rowNorm
    rw [sumSq_identRow n i hi, Real.sqrt_one]
  rw [hn]
  simp

/-- When exactly one of gain/bias is set, `get_gain_bias` raises
`NotImplementedError` with the fixed message. -/
theorem get_gain_bias_one_err (ens : Ensemble) (rng : Rng)
    (hx : ens.gain.isSome ≠ ens.bias.isSome) :
    get_gain_bias ens rng = .error (.notImplemented (gbErrMsg ens.name)) := by
  unfold get_gain_bias
  cases hg : ens.gain <;> cases hb : ens.bias <;>
    simp [hg, hb] at hx ⊢

/-- When both gain and bias are set, `get_gain_bias` samples both in order
and leaves max_rates/intercepts unset. -/
theorem get_gain_bias_both (ens : Ensemble) (rng : Rng) (gs bs : VecSpec)
    (hg : ens.gain = some gs) (hb : ens.bias = some bs) :
    get_gain_bias ens rng =
      .ok (((sampleVec gs ens.n_neurons rng).1,
            (sampleVec bs ens.n_neurons (sampleVec gs ens.n_neurons rng).2).1,
            none, none),
           (sampleVec bs ens.n_neurons (sampleVec gs ens.n_neurons rng).2).2) := by
  unfold get_gain_bias
  rw [hg, hb]

/-- When neither gain nor bias is set, `get_gain_bias` samples max_rates and
intercepts and inverts through the neuron model. -/
theorem get_gain_bias_neither (ens : Ensemble) (rng : Rng)
    (hg : ens.gain = none) (hb : ens.bias = none) :
    get_gain_bias ens rng =
      .ok (((ens.neuron_type.gain_bias
              (sampleVec ens.max_rates ens.n_neurons rng).1
              (sampleVec ens.intercepts ens.n_neurons
                (sampleVec ens.max_rates ens.n_neurons rng).2).1).1,
            (ens.neuron_type.gain_bias
              (sampleVec ens.max_rates ens.n_neurons rng).1
              (sampleVec ens.intercepts ens.n_neurons
                (sampleVec ens.max_rates ens.n_neurons rng).2).1).2,
            some (sampleVec ens.max_rates ens.n_neurons rng).1,
            some (sampleVec ens.intercepts ens.n_neurons
              (sampleVec ens.max_rates ens.n_neurons rng).2).1),
           (sampleVec ens.intercepts ens.n_neurons
             (sampleVec ens.max_rates ens.n_neurons rng).2).2) := by
  unfold get_gain_bias
  rw [hg, hb]

/-- If eval-point generation raises, the build propagates the error and only
the warning record has changed. -/
theorem build_ensemble_gen_err (m : Model) (ens : Ensemble) (ws : List String)
    (e : BuildError)
    (hgen : gen_eval_points ens ens.eval_points (mkRng (m.seeds ens.id)) true
      = (ws, .error e)) :
    build_ensemble m ens = .error (e, addWarns m ws) := by
  unfold build_ensemble
  simp only [hgen]

/-- If `get_gain_bias` raises, the build propagates the error, with the
mutations of `stage1` already applied. -/
theorem build_ensemble_gb_err (m : Model) (ens : Ensemble) (ws : List String)
    (a : Arr) (rng1 : Rng) (e : BuildError)
    (hgen : gen_eval_points ens ens.eval_points (mkRng (m.seeds ens.id)) true
      = (ws, .ok (a, rng1)))
    (hgb : get_gain_bias ens (encSample ens rng1).2 = .error e) :
    build_ensemble m ens = .error (e, stage1 m ens ws) := by
  unfold build_ensemble stage1
  simp only [hgen, hgb]

/-- On the success path, the record stored in `model.params` is determined by
the eval points, the (normalized) encoders, and the gain/bias solution. -/
theorem builtRecord_char (m : Model) (ens : Ensemble) (ws : List String)
    (a : Arr) (rng1 : Rng) (g b : List ℝ) (mro ico : Option (List ℝ)) (rng3 : Rng)
    (hgen : gen_eval_points ens ens.eval_points (mkRng (m.seeds ens.id)) true
      = (ws, .ok (a, rng1)))
    (hgb : get_gain_bias ens (encSample ens rng1).2 = .ok ((g, b, mro, ico), rng3)) :
    builtRecord m ens = some
      ⟨a, normalizeRows (encSample ens rng1).1, ico, mro,
        (if ens.neuron_type.isDirect then normalizeRows (encSample ens rng1).1
         else scaleEnc (normalizeRows (encSample ens rng1).1) g ens.radius),
        g, b⟩ := by
  unfold builtRecord build_ensemble
  simp only [hgen, hgb]
  simp [setParams]

/-- On the success path the build returns `.ok`. -/
theorem build_ensemble_ok (m : Model) (ens : Ensemble) (ws : List String)
    (a : Arr) (rng1 : Rng) (g b : List ℝ) (mro ico : Option (List ℝ)) (rng3 : Rng)
    (hgen : gen_eval_points ens ens.eval_points (mkRng (m.seeds ens.id)) true
      = (ws, .ok (a, rng1)))
    (hgb : get_gain_bias ens (encSample ens rng1).2 = .ok ((g, b, mro, ico), rng3)) :
    exOk (build_ensemble m ens) = true := by
  unfold build_ensemble
  simp only [hgen, hgb]
  rfl

/-- On the success path the warnings issued by eval-point generation are
appended to the warning record. -/
theorem build_ensemble_warns (m : Model) (ens : Ensemble) (ws : List String)
    (a : Arr) (rng1 : Rng) (g b : List ℝ) (mro ico : Option (List ℝ)) (rng3 : Rng)
    (hgen : gen_eval_points ens ens.eval_points (mkRng (m.seeds ens.id)) true
      = (ws, .ok (a, rng1)))
    (hgb : get_gain_bias ens (encSample ens rng1).2 = .ok ((g, b, mro, ico), rng3)) :
    (resModel (build_ensemble m ens)).warns = m.warns ++ ws := by
  unfold build_ensemble
  simp only [hgen, hgb]
  by_cases hD : ens.neuron_type.isDirect <;>
    cases hN : ens.noise <;>
      simp [resModel, setParams, setSig, addOp, addOps, addWarns, allocSignal, hD, hN]

/-- On the success path a read-only scaled-encoder signal is registered under
the ensemble's `encoders` role. -/
theorem build_ensemble_enc_sig (m : Model) (ens : Ensemble) (ws : List String)
    (a : Arr) (rng1 : Rng) (g b : List ℝ) (mro ico : Option (List ℝ)) (rng3 : Rng)
    (hgen : gen_eval_points ens ens.eval_points (mkRng (m.seeds ens.id)) true
      = (ws, .ok (a, rng1)))
    (hgb : get_gain_bias ens (encSample ens rng1).2 = .ok ((g, b, mro, ico), rng3)) :
    ∃ s, (resModel (build_ensemble m ens)).sig (.ens ens.id) "encoders" = some s
      ∧ s.readonly = true
      ∧ s.init = matArr (if ens.neuron_type.isDirect
          then normalizeRows (encSample ens rng1).1
          else scaleEnc (normalizeRows (encSample ens rng1).1) g ens.radius) := by
  unfold build_ensemble
  simp only [hgen, hgb]
  by_cases hD : ens.neuron_type.isDirect <;>
    cases hN : ens.noise <;>
      simp [resModel, setParams, setSig, addOp, addOps, addWarns, allocSignal, hD, hN]

/-- On the success path with a pass-through neuron model, the neuron input
and output roles hold the same registered signal. -/
theorem build_ensemble_direct_sig (m : Model) (ens : Ensemble) (ws : List String)
    (a : Arr) (rng1 : Rng) (g b : List ℝ) (mro ico : Option (List ℝ)) (rng3 : Rng)
    (hgen : gen_eval_points ens ens.eval_points (mkRng (m.seeds ens.id)) true
      = (ws, .ok (a, rng1)))
    (hgb : get_gain_bias ens (encSample ens rng1).2 = .ok ((g, b, mro, ico), rng3))
    (hD : ens.neuron_type.isDirect = true) :
    (resModel (build_ensemble m ens)).sig (.neurons ens.id) "in"
      = (resModel (build_ensemble m ens)).sig (.neurons ens.id) "out"
    ∧ ∃ s, (resModel (build_ensemble m ens)).sig (.neurons ens.id) "in" = some s := by
  unfold build_ensemble
  simp only [hgen, hgb]
  cases hN : ens.noise <;>
    simp [resModel, setParams, setSig, addOp, addOps, addWarns, allocSignal, hD, hN]

/-- A literal 2-D eval-point array whose row count disagrees with an explicit
count hint: the mismatch warning is issued and the data is kept, scaled by
the radius. -/
theorem gen_eval_points_lit_mismatch (ens : Ensemble) (a : Arr) (rng : Rng) (k : Nat)
    (hk : ens.n_eval_points = some k) (hne : a.shape.headD 0 ≠ k)
    (h2 : a.shape.length = 2) :
    gen_eval_points ens (.lit a) rng true
      = ([evalMismatchWarn], .ok (arrScale a ens.radius, rng)) := by
  unfold gen_eval_points
  simp only [hk]
  rw [if_pos hne]
  simp [Arr.ndim, h2]

/-- A literal eval-point array that is not exactly 2-D fails the shape
assertion (after the count-mismatch warning, if any, was issued). -/
theorem gen_eval_points_lit_ndim_err (ens : Ensemble) (a : Arr) (rng : Rng)
    (hnd : a.shape.length ≠ 2) :
    gen_eval_points ens (.lit a) rng true
      = ((match ens.n_eval_points with
          | some k => if a.shape.headD 0 ≠ k then [evalMismatchWarn] else []
          | none => []),
         .error .shapeAssert) := by
  unfold gen_eval_points
  simp [Arr.ndim, hnd]

/-- `getD` through an elementwise multiplication of a row. -/
theorem getD_map_mul (row : List ℝ) (c : ℝ) (j : Nat) :
    (row.map fun x => x * c).getD j 0 = row.getD j 0 * c := by
  induction row generalizing j with
  | nil => simp
  | cons x xs ih =>
    cases j with
    | zero => simp
    | succ j => simpa using ih j

/-- The broadcast `scaleEnc` elementwise: entry `(i, j)` of the scaled matrix
is entry `(i, j)` of the raw matrix times `gain i / radius` (with the usual
`getD` defaults off the end). -/
theorem scaleEnc_getD (E : Mat) (g : List ℝ) (r : ℝ) (i j : Nat) :
    ((scaleEnc E g r).getD i []).getD j 0
      = (E.getD i []).getD j 0 * (g.getD i 0 / r) := by
  induction E generalizing g i with
  | nil => simp [scaleEnc]
  | cons row E ih =>
    cases g with
    | nil => simp [scaleEnc]
    | cons gi g =>
      cases i with
      | zero =>
        simp only [scaleEnc, List.zipWith_cons_cons, List.getD_cons_zero]
        exact getD_map_mul row (gi / r) j
      | succ i =>
        simp only [scaleEnc, List.zipWith_cons_cons, List.getD_cons_succ]
        exact ih g i

/-- C1: two runs of the build pipeline on the same ensemble spec with the
same seed record the same `BuiltEnsemble` (hence bit-identical eval_points,
encoders, gain and bias), whatever else differs between the two build
contexts (signal counter, prior signals/operators/params/warnings from other
ensembles built before or after). -/
theorem claim1_build_deterministic (m1 m2 : Model) (ens : Ensemble)
    (h : m1.seeds ens.id = m2.seeds ens.id) :
    builtRecord m1 ens = builtRecord m2 ens := by
  have hr : mkRng (m1.seeds ens.id) = mkRng (m2.seeds ens.id) := by rw [h]
  rcases hgen : gen_eval_points ens ens.eval_points (mkRng (m2.seeds ens.id)) true
    with ⟨ws, res⟩
  cases res with
  | error e =>
    have h1 := build_ensemble_gen_err m1 ens ws e (by rw [hr]; exact hgen)
    have h2 := build_ensemble_gen_err m2 ens ws e hgen
    unfold builtRecord
    rw [h1, h2]
  | ok pr =>
    rcases pr with ⟨a, rng1⟩
    cases hgb : get_gain_bias ens (encSample ens rng1).2 with
    | error e =>
      have h1 := build_ensemble_gb_err m1 ens ws a rng1 e (by rw [hr]; exact hgen) hgb
      have h2 := build_ensemble_gb_err m2 ens ws a rng1 e hgen hgb
      unfold builtRecord
      rw [h1, h2]
    | ok gbr =>
      rcases gbr with ⟨⟨g, b, mro, ico⟩, rng3⟩
      rw [builtRecord_char m1 ens ws a rng1 g b mro ico rng3 (by rw [hr]; exact hgen) hgb,
        builtRecord_char m2 ens ws a rng1 g b mro ico rng3 hgen hgb]

/-- C1 witness: two contexts with the same seed table entry but different
signal counters, warning records, and histories record identical results. -/
theorem claim1_witness :
    exModel.seeds exEns.id = exModelB.seeds exEns.id
    ∧ builtRecord exModel exEns = builtRecord exModelB exEns :=
  ⟨rfl, claim1_build_deterministic exModel exModelB exEns rfl⟩

/-- C3 counterexample: the claim says the error message identifies which of
gain/bias was set without the other, but the only-gain and only-bias
configurations of the same ensemble produce the identical error value (the
message mentions both names and cannot distinguish the two cases). -/
theorem claim3_counterexample :
    get_gain_bias exEnsOnlyGain 0 = .error (.notImplemented (gbErrMsg "E"))
    ∧ get_gain_bias exEnsOnlyBias 0 = .error (.notImplemented (gbErrMsg "E"))
    ∧ exEnsOnlyGain.gain.isSome = true ∧ exEnsOnlyGain.bias.isSome = false
    ∧ exEnsOnlyBias.gain.isSome = false ∧ exEnsOnlyBias.bias.isSome = true :=
  ⟨rfl, rfl, rfl, rfl, rfl, rfl⟩

/-- C3 (amended): when exactly one of gain and bias is specified,
`get_gain_bias` fails immediately with the `NotImplementedError` carrying the
fixed unsupported-configuration message (naming the ensemble and saying gain
or bias was set but not both, without identifying which). -/
theorem claim3_one_of_gain_bias_raises (ens : Ensemble) (rng : Rng)
    (hx : ens.gain.isSome ≠ ens.bias.isSome) :
    get_gain_bias ens rng = .error (.notImplemented (gbErrMsg ens.name)) :=
  get_gain_bias_one_err ens rng hx

/-- C3 witness: the only-gain fixture raises the fixed message. -/
theorem claim3_witness :
    exEnsOnlyGain.gain.isSome ≠ exEnsOnlyGain.bias.isSome
    ∧ get_gain_bias exEnsOnlyGain 3
      = .error (.notImplemented (gbErrMsg exEnsOnlyGain.name)) :=
  ⟨by decide, claim3_one_of_gain_bias_raises exEnsOnlyGain 3 (by decide)⟩

/-- C9: when both gain and bias are specified, `get_gain_bias` samples both
directly (gain first, then bias, threading the rng) and returns max_rates
and intercepts as unset (`none`); nothing is back-derived from gain/bias. -/
theorem claim9_both_sampled_directly (ens : Ensemble) (rng : Rng) (gs bs : VecSpec)
    (hg : ens.gain = some gs) (hb : ens.bias = some bs) :
    get_gain_bias ens rng =
      .ok (((sampleVec gs ens.n_neurons rng).1,
            (sampleVec bs ens.n_neurons (sampleVec gs ens.n_neurons rng).2).1,
            none, none),
           (sampleVec bs ens.n_neurons (sampleVec gs ens.n_neurons rng).2).2) :=
  get_gain_bias_both ens rng gs bs hg hb

/-- C9 witness: the base fixture has both gain and bias as literal vectors;
they are returned as sampled and max_rates/intercepts stay `none`. -/
theorem claim9_witness :
    exEns.gain = some (.lit [1, 2]) ∧ exEns.bias = some (.lit [0, 0])
    ∧ get_gain_bias exEns 5 =
      .ok (((sampleVec (.lit [1, 2]) exEns.n_neurons 5).1,
            (sampleVec (.lit [0, 0]) exEns.n_neurons
              (sampleVec (.lit [1, 2]) exEns.n_neurons 5).2).1,
            none, none),
           (sampleVec (.lit [0, 0]) exEns.n_neurons
             (sampleVec (.lit [1, 2]) exEns.n_neurons 5).2).2) :=
  ⟨rfl, rfl, claim9_both_sampled_directly exEns 5 (.lit [1, 2]) (.lit [0, 0]) rfl rfl⟩

/-- A successful build means eval-point generation and gain/bias resolution
both succeeded. -/
theorem build_ok_inv (m : Model) (ens : Ensemble)
    (hok : exOk (build_ensemble m ens) = true) :
    ∃ ws a rng1 g b mro ico rng3,
      gen_eval_points ens ens.eval_points (mkRng (m.seeds ens.id)) true
        = (ws, .ok (a, rng1))
      ∧ get_gain_bias ens (encSample ens rng1).2 = .ok ((g, b, mro, ico), rng3) := by
  rcases hgen : gen_eval_points ens ens.eval_points (mkRng (m.seeds ens.id)) true
    with ⟨ws, res⟩
  cases res with
  | error e =>
    rw [build_ensemble_gen_err m ens ws e hgen] at hok
    simp [exOk] at hok
  | ok pr =>
    rcases pr with ⟨a, rng1⟩
    cases hgb : get_gain_bias ens (encSample ens rng1).2 with
    | error e =>
      rw [build_ensemble_gb_err m ens ws a rng1 e hgen hgb] at hok
      simp [exOk] at hok
    | ok gbr =>
      rcases gbr with ⟨⟨g, b, mro, ico⟩, rng3⟩
      exact ⟨ws, a, rng1, g, b, mro, ico, rng3, rfl, hgb⟩


/-- C2: for a pass-through ensemble, after a successful build the registered
neuron-input and neuron-output signals are the identical buffer, and both
the recorded encoders and scaled encoders are the D×D identity matrix. -/
theorem claim2_direct_alias_identity (m : Model) (ens : Ensemble)
    (hD : ens.neuron_type.isDirect = true)
    (hok : exOk (build_ensemble m ens) = true) :
    (resModel (build_ensemble m ens)).sig (.neurons ens.id) "in"
      = (resModel (build_ensemble m ens)).sig (.neurons ens.id) "out"
    ∧ (∃ s, (resModel (build_ensemble m ens)).sig (.neurons ens.id) "in" = some s)
    ∧ builtEncoders m ens = identityMat ens.dimensions
    ∧ builtScaledEncoders m ens = identityMat ens.dimensions := by
  obtain ⟨ws, a, rng1, g, b, mro, ico, rng3, hgen, hgb⟩ := build_ok_inv m ens hok
  have hsig := build_ensemble_direct_sig m ens ws a rng1 g b mro ico rng3 hgen hgb hD
  have hrec := builtRecord_char m ens ws a rng1 g b mro ico rng3 hgen hgb
  have hes : encSample ens rng1 = (identityMat ens.dimensions, rng1) := by
    unfold encSample
    rw [hD]
    simp
  refine ⟨hsig.1, hsig.2, ?_, ?_⟩
  · unfold builtEncoders
    rw [hrec]
    simp [hes, normalizeRows_identityMat]
  · unfold builtScaledEncoders
    rw [hrec]
    simp [hes, hD, normalizeRows_identityMat]

/-- C2 witness: the pass-through fixture builds, aliases the neuron signals
and records identity encoders and scaled encoders. -/
theorem claim2_witness :
    exEnsDirect.neuron_type.isDirect = true
    ∧ exOk (build_ensemble exModel exEnsDirect) = true
    ∧ ((resModel (build_ensemble exModel exEnsDirect)).sig (.neurons exEnsDirect.id) "in"
        = (resModel (build_ensemble exModel exEnsDirect)).sig (.neurons exEnsDirect.id) "out"
      ∧ (∃ s, (resModel (build_ensemble exModel exEnsDirect)).sig
          (.neurons exEnsDirect.id) "in" = some s)
      ∧ builtEncoders exModel exEnsDirect = identityMat exEnsDirect.dimensions
      ∧ builtScaledEncoders exModel exEnsDirect = identityMat exEnsDirect.dimensions) :=
  ⟨rfl, rfl, claim2_direct_alias_identity exModel exEnsDirect rfl rfl⟩

/-- C4: for a non-pass-through ensemble whose raw (sampled or literal)
encoder matrix has no zero row, every row of the recorded encoder matrix has
Euclidean norm 1. -/
theorem claim4_encoder_rows_unit_norm (m : Model) (ens : Ensemble)
    (_hD : ens.neuron_type.isDirect = false)
    (hraw : ∀ v ∈ rawEncoders m ens, sumSq v ≠ 0) :
    ∀ r ∈ builtEncoders m ens, rowNorm r = 1 := by
  rcases hgen : gen_eval_points ens ens.eval_points (mkRng (m.seeds ens.id)) true
    with ⟨ws, res⟩
  cases res with
  | error e =>
    unfold builtEncoders builtRecord
    rw [build_ensemble_gen_err m ens ws e hgen]
    simp
  | ok pr =>
    rcases pr with ⟨a, rng1⟩
    have hre : rawEncoders m ens = (encSample ens rng1).1 := by
      unfold rawEncoders
      simp only [hgen]
    cases hgb : get_gain_bias ens (encSample ens rng1).2 with
    | error e =>
      unfold builtEncoders builtRecord
      rw [build_ensemble_gb_err m ens ws a rng1 e hgen hgb]
      simp
    | ok gbr =>
      rcases gbr with ⟨⟨g, b, mro, ico⟩, rng3⟩
      have hrec := builtRecord_char m ens ws a rng1 g b mro ico rng3 hgen hgb
      unfold builtEncoders
      rw [hrec]
      rw [hre] at hraw
      exact rowNorm_normalizeRows _ hraw

/-- C4 witness: the non-pass-through fixture has literal encoders with
nonzero rows and every recorded encoder row has unit norm. -/
theorem claim4_witness :
    exEns.neuron_type.isDirect = false
    ∧ (∀ v ∈ rawEncoders exModel exEns, sumSq v ≠ 0)
    ∧ (∀ r ∈ builtEncoders exModel exEns, rowNorm r = 1) := by
  have hraw : ∀ v ∈ rawEncoders exModel exEns, sumSq v ≠ 0 := by
    have he : rawEncoders exModel exEns = [[1, 0], [0, 1]] := rfl
    rw [he]
    intro v hv
    simp only [List.mem_cons, List.not_mem_nil, or_false] at hv
    rcases hv with rfl | rfl <;> simp [sumSq]
  exact ⟨rfl, hraw, claim4_encoder_rows_unit_norm exModel exEns rfl hraw⟩

/-- C5: for a non-pass-through ensemble, after a successful build the
recorded scaled encoders equal the recorded (unit-norm) encoders with entry
`(i, j)` multiplied by `gain i / radius`, and the registered read-only
encoder signal holds exactly that matrix. -/
theorem claim5_scaled_encoders_gain_over_radius (m : Model) (ens : Ensemble)
    (hD : ens.neuron_type.isDirect = false)
    (hok : exOk (build_ensemble m ens) = true) :
    (∀ i j : Nat,
      ((builtScaledEncoders m ens).getD i []).getD j 0
        = ((builtEncoders m ens).getD i []).getD j 0
          * ((builtGain m ens).getD i 0 / ens.radius))
    ∧ ∃ s, (resModel (build_ensemble m ens)).sig (.ens ens.id) "encoders" = some s
        ∧ s.readonly = true
        ∧ s.init = matArr (builtScaledEncoders m ens) := by
  obtain ⟨ws, a, rng1, g, b, mro, ico, rng3, hgen, hgb⟩ := build_ok_inv m ens hok
  have hrec := builtRecord_char m ens ws a rng1 g b mro ico rng3 hgen hgb
  have hsc : builtScaledEncoders m ens
      = scaleEnc (normalizeRows (encSample ens rng1).1) g ens.radius := by
    unfold builtScaledEncoders
    rw [hrec]
    simp [hD]
  have henc : builtEncoders m ens = normalizeRows (encSample ens rng1).1 := by
    unfold builtEncoders
    rw [hrec]
  have hgn : builtGain m ens = g := by
    unfold builtGain
    rw [hrec]
  constructor
  · intro i j
    rw [hsc, henc, hgn]
    exact scaleEnc_getD _ g ens.radius i j
  · obtain ⟨s, hs1, hs2, hs3⟩ :=
      build_ensemble_enc_sig m ens ws a rng1 g b mro ico rng3 hgen hgb
    refine ⟨s, hs1, hs2, ?_⟩
    rw [hsc, hs3]
    simp [hD]

/-- C5 witness: the base non-pass-through fixture builds and satisfies the
elementwise scaled-encoder relation and the read-only signal property. -/
theorem claim5_witness :
    exEns.neuron_type.isDirect = false
    ∧ exOk (build_ensemble exModel exEns) = true
    ∧ ((∀ i j : Nat,
        ((builtScaledEncoders exModel exEns).getD i []).getD j 0
          = ((builtEncoders exModel exEns).getD i []).getD j 0
            * ((builtGain exModel exEns).getD i 0 / exEns.radius))
      ∧ ∃ s, (resModel (build_ensemble exModel exEns)).sig (.ens exEns.id) "encoders"
            = some s
          ∧ s.readonly = true
          ∧ s.init = matArr (builtScaledEncoders exModel exEns)) :=
  ⟨rfl, rfl, claim5_scaled_encoders_gain_over_radius exModel exEns rfl rfl⟩

/-- C6: when exactly one of gain/bias is supplied (and eval-point generation
itself succeeds), the build aborts with the unsupported-configuration error
and no encoder signal has been registered for the ensemble in the build
context the error leaves behind. -/
theorem claim6_no_encoder_signal_on_failure (m : Model) (ens : Ensemble)
    (hx : ens.gain.isSome ≠ ens.bias.isSome)
    (hgen : exOk (gen_eval_points ens ens.eval_points
      (mkRng (m.seeds ens.id)) true).2 = true)
    (hinit : m.sig (.ens ens.id) "encoders" = none) :
    resErr (build_ensemble m ens) = some (.notImplemented (gbErrMsg ens.name))
    ∧ (resModel (build_ensemble m ens)).sig (.ens ens.id) "encoders" = none := by
  rcases hg : gen_eval_points ens ens.eval_points (mkRng (m.seeds ens.id)) true
    with ⟨ws, res⟩
  cases res with
  | error e =>
    rw [hg] at hgen
    simp [exOk] at hgen
  | ok pr =>
    rcases pr with ⟨a, rng1⟩
    rw [build_ensemble_gb_err m ens ws a rng1 _ hg (get_gain_bias_one_err ens _ hx)]
    refine ⟨rfl, ?_⟩
    simp [resModel, stage1, setSig, addOp, addWarns, allocSignal, hinit]

/-- C6 witness: the only-gain fixture in a fresh context aborts and leaves no
encoder signal registered. -/
theorem claim6_witness :
    exEnsOnlyGain.gain.isSome ≠ exEnsOnlyGain.bias.isSome
    ∧ exOk (gen_eval_points exEnsOnlyGain exEnsOnlyGain.eval_points
        (mkRng (exModel.seeds exEnsOnlyGain.id)) true).2 = true
    ∧ exModel.sig (.ens exEnsOnlyGain.id) "encoders" = none
    ∧ (resErr (build_ensemble exModel exEnsOnlyGain)
        = some (.notImplemented (gbErrMsg exEnsOnlyGain.name))
      ∧ (resModel (build_ensemble exModel exEnsOnlyGain)).sig
          (.ens exEnsOnlyGain.id) "encoders" = none) :=
  ⟨by decide, rfl, rfl,
    claim6_no_encoder_signal_on_failure exModel exEnsOnlyGain (by decide) rfl rfl⟩

/-- C7: a literal 2-D eval-point array whose row count disagrees with an
explicit count hint (with gain/bias consistently configured) builds
successfully, records the mismatch warning, and records the array's actual
rows with every coordinate scaled by the radius. -/
theorem claim7_eval_point_count_mismatch (m : Model) (ens : Ensemble) (a : Arr)
    (k : Nat)
    (hlit : ens.eval_points = .lit a) (h2 : a.shape.length = 2)
    (hk : ens.n_eval_points = some k) (hne : a.shape.headD 0 ≠ k)
    (hgb : ens.gain.isSome = ens.bias.isSome) :
    exOk (build_ensemble m ens) = true
    ∧ evalMismatchWarn ∈ (resModel (build_ensemble m ens)).warns
    ∧ builtEvalPoints m ens = arrScale a ens.radius := by
  have hgen : gen_eval_points ens ens.eval_points (mkRng (m.seeds ens.id)) true
      = ([evalMismatchWarn], .ok (arrScale a ens.radius, mkRng (m.seeds ens.id))) := by
    rw [hlit]
    exact gen_eval_points_lit_mismatch ens a _ k hk hne h2
  have hgbok : ∃ g b mro ico rng3,
      get_gain_bias ens (encSample ens (mkRng (m.seeds ens.id))).2
        = .ok ((g, b, mro, ico), rng3) := by
    cases hgo : ens.gain with
    | some gs =>
      cases hbo : ens.bias with
      | some bs => exact ⟨_, _, _, _, _, get_gain_bias_both ens _ gs bs hgo hbo⟩
      | none =>
        rw [hgo, hbo] at hgb
        simp at hgb
    | none =>
      cases hbo : ens.bias with
      | some bs =>
        rw [hgo, hbo] at hgb
        simp at hgb
      | none => exact ⟨_, _, _, _, _, get_gain_bias_neither ens _ hgo hbo⟩
  obtain ⟨g, b, mro, ico, rng3, hgbo⟩ := hgbok
  refine ⟨build_ensemble_ok m ens _ _ _ g b mro ico rng3 hgen hgbo, ?_, ?_⟩
  · rw [build_ensemble_warns m ens _ _ _ g b mro ico rng3 hgen hgbo]
    simp
  · unfold builtEvalPoints
    rw [builtRecord_char m ens _ _ _ g b mro ico rng3 hgen hgbo]

/-- C7 witness: the 50-row/hint-40 fixture builds, warns, and records the 50
rows scaled by the radius. -/
theorem claim7_witness :
    exEnsMismatch.eval_points = .lit ⟨[50, 1], List.replicate 50 1⟩
    ∧ (⟨[50, 1], List.replicate 50 1⟩ : Arr).shape.length = 2
    ∧ exEnsMismatch.n_eval_points = some 40
    ∧ (⟨[50, 1], List.replicate 50 1⟩ : Arr).shape.headD 0 ≠ 40
    ∧ exEnsMismatch.gain.isSome = exEnsMismatch.bias.isSome
    ∧ (exOk (build_ensemble exModel exEnsMismatch) = true
      ∧ evalMismatchWarn ∈ (resModel (build_ensemble exModel exEnsMismatch)).warns
      ∧ builtEvalPoints exModel exEnsMismatch
        = arrScale ⟨[50, 1], List.replicate 50 1⟩ exEnsMismatch.radius) :=
  ⟨rfl, rfl, rfl, by decide, rfl,
    claim7_eval_point_count_mismatch exModel exEnsMismatch
      ⟨[50, 1], List.replicate 50 1⟩ 40 rfl rfl rfl (by decide) rfl⟩

/-- C8: a literal eval-point array that is not exactly 2-dimensional makes
the build fail with the shape assertion error and records no result for the
ensemble (the params table is untouched). -/
theorem claim8_bad_ndim_shape_error (m : Model) (ens : Ensemble) (a : Arr)
    (hlit : ens.eval_points = .lit a) (hnd : a.shape.length ≠ 2) :
    resErr (build_ensemble m ens) = some .shapeAssert
    ∧ (resModel (build_ensemble m ens)).params = m.params := by
  have hgen : gen_eval_points ens ens.eval_points (mkRng (m.seeds ens.id)) true
      = ((match ens.n_eval_points with
          | some k => if a.shape.headD 0 ≠ k then [evalMismatchWarn] else []
          | none => []),
         .error .shapeAssert) := by
    rw [hlit]
    exact gen_eval_points_lit_ndim_err ens a _ hnd
  rw [build_ensemble_gen_err m ens _ .shapeAssert hgen]
  exact ⟨rfl, rfl⟩

/-- C8 witness: the 3-D fixture fails with the shape assertion and its params
table is unchanged. -/
theorem claim8_witness :
    exEns3d.eval_points = .lit ⟨[2, 2, 2], List.replicate 8 1⟩
    ∧ (⟨[2, 2, 2], List.replicate 8 1⟩ : Arr).shape.length ≠ 2
    ∧ (resErr (build_ensemble exModel exEns3d) = some .shapeAssert
      ∧ (resModel (build_ensemble exModel exEns3d)).params = exModel.params) :=
  ⟨rfl, by decide,
    claim8_bad_ndim_shape_error exModel exEns3d ⟨[2, 2, 2], List.replicate 8 1⟩
      rfl (by decide)⟩

/-- C10: when the build aborts because exactly one of gain/bias is set (and
eval-point generation succeeded), the context the error leaves behind is
already mutated for the ensemble: a zero-initialized dimension-D input
signal is registered and a Reset operator on that very signal was added. -/
theorem claim10_partial_state_on_failure (m : Model) (ens : Ensemble)
    (hx : ens.gain.isSome ≠ ens.bias.isSome)
    (hgen : exOk (gen_eval_points ens ens.eval_points
      (mkRng (m.seeds ens.id)) true).2 = true) :
    resErr (build_ensemble m ens) = some (.notImplemented (gbErrMsg ens.name))
    ∧ ∃ s, (resModel (build_ensemble m ens)).sig (.ens ens.id) "in" = some s
        ∧ s.init = zerosArr ens.dimensions
        ∧ Operator.reset s ∈ (resModel (build_ensemble m ens)).ops := by
  rcases hg : gen_eval_points ens ens.eval_points (mkRng (m.seeds ens.id)) true
    with ⟨ws, res⟩
  cases res with
  | error e =>
    rw [hg] at hgen
    simp [exOk] at hgen
  | ok pr =>
    rcases pr with ⟨a, rng1⟩
    rw [build_ensemble_gb_err m ens ws a rng1 _ hg (get_gain_bias_one_err ens _ hx)]
    refine ⟨rfl,
      ⟨(allocSignal (addWarns m ws) (zerosArr ens.dimensions)
        (ens.name ++ ".signal") false).1, ?_, rfl, ?_⟩⟩
    · simp [resModel, stage1, setSig, addOp, addWarns, allocSignal]
    · simp [resModel, stage1, setSig, addOp, addWarns, allocSignal]

/-- C10 witness: the only-bias fixture aborts while its input signal and its
Reset operator are already registered in the context. -/
theorem claim10_witness :
    exEnsOnlyBias.gain.isSome ≠ exEnsOnlyBias.bias.isSome
    ∧ exOk (gen_eval_points exEnsOnlyBias exEnsOnlyBias.eval_points
        (mkRng (exModel.seeds exEnsOnlyBias.id)) true).2 = true
    ∧ (resErr (build_ensemble exModel exEnsOnlyBias)
        = some (.notImplemented (gbErrMsg exEnsOnlyBias.name))
      ∧ ∃ s, (resModel (build_ensemble exModel exEnsOnlyBias)).sig
            (.ens exEnsOnlyBias.id) "in" = some s
          ∧ s.init = zerosArr exEnsOnlyBias.dimensions
          ∧ Operator.reset s ∈ (resModel (build_ensemble exModel exEnsOnlyBias)).ops) :=
  ⟨by decide, rfl,
    claim10_partial_state_on_failure exModel exEnsOnlyBias (by decide) rfl⟩

end

end NengoBuild
